import Mathlib

/-!
Verification of the spreadsheet-to-relational ingestion pipeline of the
publishing-intelligence dashboard backend (`app1.js`, `app5.js`,
`unnamed/part_000` and the chat endpoint of `app7.js`).

Embedding conventions:
* A spreadsheet cell value is a `CellValue` (absent/null, string, integer
  number, or boolean); a row produced by `XLSX.utils.sheet_to_json` is an
  association list of header string to cell value, in insertion order.
* JavaScript string operations are mirrored on Lean `String`s as structurally
  recursive functions over the underlying character list (`toLowerCase` as
  character-wise `toLower`, `trim` as stripping whitespace at both ends,
  `includes` as substring containment).  `String(value)` is `jsString`;
  JavaScript truthiness of a cell is `jsFalsy`.
* `Math.random()` draws are rational parameters `r` (valid draws satisfy
  `0 ≤ r < 1`); `Math.floor` is `Int.floor` on `ℚ`.
* The SQLite tables become lists inside a `Store`; `INSERT` appends,
  `DELETE ... WHERE university_id = ?` filters, `SELECT ... WHERE title = ?`
  is `List.find?`.  The node-sqlite3 statement queue (statements execute
  first-in first-out; a statement scheduled from a result callback joins the
  back of the queue) becomes an explicit operation queue consumed by the
  fuelled interpreter `runOps`.
-/

namespace PubIntel

/-- Substring containment on character lists: `containsSub sub l` is true iff
`sub` occurs contiguously inside `l` (the semantics of JavaScript
`String.prototype.includes`). -/
def containsSub (sub : List Char) : List Char → Bool
  | [] => sub.isEmpty
  | c :: t => sub.isPrefixOf (c :: t) || containsSub sub t

/-- JavaScript `haystack.includes(needle)`. -/
def strIncludes (haystack needle : String) : Bool :=
  containsSub needle.data haystack.data

/-- JavaScript `toLowerCase`, character-wise (ASCII-adequate for this data). -/
def strLower (s : String) : String := ⟨s.data.map Char.toLower⟩

/-- The whitespace characters JavaScript `trim` removes (ASCII subset). -/
def isWS (c : Char) : Bool := c == ' ' || c == '\t' || c == '\n' || c == '\r'

/-- JavaScript `trim`: strip whitespace from both ends. -/
def strTrim (s : String) : String :=
  ⟨((s.data.dropWhile isWS).reverse.dropWhile isWS).reverse⟩

/-- A raw spreadsheet cell value as seen by the JavaScript code.  `vNull`
stands for an absent cell / `null` / `undefined`; numeric cells are modelled
as integers (every claim-relevant numeric cell is integral). -/
inductive CellValue where
  | vNull : CellValue
  | vStr : String → CellValue
  | vNum : ℤ → CellValue
  | vBool : Bool → CellValue
deriving DecidableEq, Repr

/-- JavaScript `String(value)` (for the integer, boolean and null cases the
JavaScript rendering is reproduced exactly). -/
def jsString : CellValue → String
  | .vNull => "null"
  | .vStr s => s
  | .vNum n => toString n
  | .vBool b => if b then "true" else "false"

/-- JavaScript falsiness `!value` of a cell value. -/
def jsFalsy : CellValue → Bool
  | .vNull => true
  | .vStr s => s == ""
  | .vNum n => n == 0
  | .vBool b => !b

/-- `parseBoolean` from `app1.js` lines 865-869 (identical in
`unnamed/part_000` lines 344-348): falsy input is false, otherwise the
stringified, lower-cased, trimmed value is compared against the four tokens
`"1"`, `"yes"`, `"true"`, `"y"`.  Note `"subscribed"` is NOT accepted here. -/
def parseBoolean (value : CellValue) : Bool :=
  if jsFalsy value then false
  else
    let str := strTrim (strLower (jsString value))
    str == "1" || str == "yes" || str == "true" || str == "y"

/-- `parseSubscriptionStatus` from `app5.js` lines 1655-1660: `undefined`,
`null` and the empty string are false, otherwise the stringified, lower-cased,
trimmed value is compared against five tokens, including `"subscribed"`. -/
def parseSubscriptionStatus (value : CellValue) : Bool :=
  match value with
  | .vNull => false
  | v =>
    if v == .vStr "" then false
    else
      let str := strTrim (strLower (jsString v))
      str == "1" || str == "yes" || str == "true" || str == "y" || str == "subscribed"

/-- The trimmed, lower-cased string form of a cell value, the quantity the
specification's truthy-token contract is phrased over. -/
def jsStringForm (v : CellValue) : String := strTrim (strLower (jsString v))

/-- The five truthy tokens the claim (and `parseSubscriptionStatus`) use. -/
def truthyTokensApp5 : List String := ["1", "yes", "true", "y", "subscribed"]

/-- The four truthy tokens `parseBoolean` actually uses. -/
def truthyTokensApp1 : List String := ["1", "yes", "true", "y"]

/-- C1 (counterexample): the claim says `parseBoolean` returns true on every
value whose trimmed lower-cased string form is among the five truthy tokens,
in particular on the string "subscribed" — but `parseBoolean` of `app1.js` /
`part_000` returns false on it, while its string form is the token
"subscribed" itself. -/
theorem C1_counterexample :
    parseBoolean (.vStr "subscribed") = false ∧
    jsStringForm (.vStr "subscribed") ∈ truthyTokensApp5 := by
  constructor
  · decide
  · decide

/-- C1 (amended): `parseSubscriptionStatus` returns true exactly when the
trimmed lower-cased string form of the value is one of the five tokens
`"1"`, `"yes"`, `"true"`, `"y"`, `"subscribed"`; `parseBoolean` obeys the same
contract with the four tokens `"1"`, `"yes"`, `"true"`, `"y"` (it does not
accept `"subscribed"`).  Every other value — including empty, null and
missing input — yields false, and both functions are total, so they never
throw. -/
theorem C1_amended (v : CellValue) :
    (parseBoolean v = true ↔ jsStringForm v ∈ truthyTokensApp1) ∧
    (parseSubscriptionStatus v = true ↔ jsStringForm v ∈ truthyTokensApp5) := by
  cases v with
  | vNull => decide
  | vBool b => cases b <;> decide
  | vStr s =>
    by_cases h : s = ""
    · subst h; decide
    · constructor
      · simp only [parseBoolean, jsFalsy, jsString, jsStringForm, truthyTokensApp1, h]
        simp [h]
        tauto
      · simp only [parseSubscriptionStatus, jsString, jsStringForm, truthyTokensApp5, h]
        simp [h]
        tauto
  | vNum n =>
    by_cases h : n = 0
    · subst h; decide
    · constructor
      · simp only [parseBoolean, jsFalsy, jsString, jsStringForm, truthyTokensApp1, h]
        simp [h]
        tauto
      · simp only [parseSubscriptionStatus, jsString, jsStringForm, truthyTokensApp5, h]
        simp [h]
        tauto

/-- A spreadsheet row as produced by `XLSX.utils.sheet_to_json`: column
headers paired with cell values, in the object's insertion order. -/
def Row : Type := List (String × CellValue)

/-- `findValue` from `app1.js` lines 853-863 (identical in `part_000`):
iterate the row's column names in insertion order; return the value of the
first column whose lower-cased name contains some lower-cased candidate as a
substring, else null (`none`). -/
def findValue (row : Row) (possibleKeys : List String) : Option CellValue :=
  match row with
  | [] => none
  | (key, v) :: rest =>
    if possibleKeys.any (fun possibleKey => strIncludes (strLower key) (strLower possibleKey))
    then some v
    else findValue rest possibleKeys

/-- `findColumnValue` from `app5.js` lines 1642-1652: like `findValue` but the
column name is additionally trimmed and the containment test is BIDIRECTIONAL
(`lowerKey.includes(name) || name.includes(lowerKey)`). -/
def findColumnValue (row : Row) (possibleNames : List String) : Option CellValue :=
  match row with
  | [] => none
  | (key, v) :: rest =>
    let lowerKey := strTrim (strLower key)
    if possibleNames.any (fun nm =>
        strIncludes lowerKey (strLower nm) || strIncludes (strLower nm) lowerKey)
    then some v
    else findColumnValue rest possibleNames

/-- The column resolver exactly as the claim words it (for refinement
comparison): the first column, in insertion order, whose lower-cased name
contains some lower-cased candidate as a substring; null when none match. -/
def resolverSpec (row : Row) (cands : List String) : Option CellValue :=
  (List.find? (fun kv : String × CellValue =>
    cands.any fun c => strIncludes (strLower kv.1) (strLower c)) row).map (·.2)

/-- The contract `findColumnValue` actually implements: first column whose
trimmed lower-cased name and some lower-cased candidate contain one another
in either direction. -/
def resolverBidiSpec (row : Row) (cands : List String) : Option CellValue :=
  (List.find? (fun kv : String × CellValue =>
    cands.any fun c =>
      strIncludes (strTrim (strLower kv.1)) (strLower c) ||
      strIncludes (strLower c) (strTrim (strLower kv.1))) row).map (·.2)

/-- A list permutation leaves `List.any` unchanged. -/
theorem perm_any {α : Type} (p : α → Bool) {l l' : List α}
    (h : List.Perm l l') : l.any p = l'.any p := by
  cases hb : l'.any p with
  | false =>
    rw [List.any_eq_false] at hb ⊢
    intro x hx
    exact hb x (h.mem_iff.mp hx)
  | true =>
    rw [List.any_eq_true] at hb ⊢
    obtain ⟨x, hx, hpx⟩ := hb
    exact ⟨x, h.mem_iff.mpr hx, hpx⟩

/-- C4 (counterexample): the claim says the resolver returns the value of the
first column whose lower-cased name contains some candidate, and null when no
column name contains a candidate.  `findColumnValue` of `app5.js` violates
this: for a row with single column "cost" and candidate list ["annual cost"],
no column name contains a candidate (so the claimed result is null, as
`resolverSpec` computes), yet `findColumnValue` returns the column's value
because the candidate contains the column name. -/
theorem C4_counterexample :
    findColumnValue [("cost", .vNum 100)] ["annual cost"] = some (.vNum 100) ∧
    resolverSpec [("cost", .vNum 100)] ["annual cost"] = none ∧
    strIncludes (strLower "cost") (strLower "annual cost") = false := by
  refine ⟨by decide, by decide, by decide⟩

/-- C4 (amended): `findValue` (`app1.js`) implements exactly the claimed
contract — first column in insertion order whose lower-cased name contains
some lower-cased candidate, null otherwise — while `findColumnValue`
(`app5.js`) implements the bidirectional variant (a column also matches when
a candidate contains the trimmed column name).  For both, permuting the
candidate list never changes the result (in particular it never changes which
column is returned). -/
theorem C4_amended (row : Row) (cands cands' : List String)
    (h : List.Perm cands cands') :
    findValue row cands = resolverSpec row cands ∧
    findColumnValue row cands = resolverBidiSpec row cands ∧
    findValue row cands = findValue row cands' ∧
    findColumnValue row cands = findColumnValue row cands' := by
  induction row with
  | nil =>
    exact ⟨rfl, rfl, rfl, rfl⟩
  | cons kv rest ih =>
    obtain ⟨ih1, ih2, ih3, ih4⟩ := ih
    obtain ⟨key, v⟩ := kv
    refine ⟨?_, ?_, ?_, ?_⟩
    · simp only [findValue, resolverSpec, List.find?]
      cases hc : cands.any fun c => strIncludes (strLower key) (strLower c) with
      | false => simpa [hc] using ih1
      | true => simp [hc]
    · simp only [findColumnValue, resolverBidiSpec, List.find?]
      cases hc : cands.any fun c =>
          strIncludes (strTrim (strLower key)) (strLower c) ||
          strIncludes (strLower c) (strTrim (strLower key)) with
      | false => simpa [hc] using ih2
      | true => simp [hc]
    · simp only [findValue]
      rw [perm_any _ h]
      cases hc : cands'.any fun c => strIncludes (strLower key) (strLower c) with
      | false => simpa [hc] using ih3
      | true => simp [hc]
    · simp only [findColumnValue]
      rw [perm_any _ h]
      cases hc : cands'.any fun nm =>
          strIncludes (strTrim (strLower key)) (strLower nm) ||
          strIncludes (strLower nm) (strTrim (strLower key)) with
      | false => simpa [hc] using ih4
      | true => simp [hc]

/-- C4 witness: the specification's own example — a row with columns
`Journal_Title` and `Cost`; the candidate lists `["title","journal"]` and
`["journal","title"]` are permutations of one another and resolve
identically. -/
theorem C4_witness :
    List.Perm ["title", "journal"] ["journal", "title"] ∧
    (findValue [("Journal_Title", .vStr "X"), ("Cost", .vNum 100)] ["title", "journal"]
      = resolverSpec [("Journal_Title", .vStr "X"), ("Cost", .vNum 100)] ["title", "journal"] ∧
    findColumnValue [("Journal_Title", .vStr "X"), ("Cost", .vNum 100)] ["title", "journal"]
      = resolverBidiSpec [("Journal_Title", .vStr "X"), ("Cost", .vNum 100)] ["title", "journal"] ∧
    findValue [("Journal_Title", .vStr "X"), ("Cost", .vNum 100)] ["title", "journal"]
      = findValue [("Journal_Title", .vStr "X"), ("Cost", .vNum 100)] ["journal", "title"] ∧
    findColumnValue [("Journal_Title", .vStr "X"), ("Cost", .vNum 100)] ["title", "journal"]
      = findColumnValue [("Journal_Title", .vStr "X"), ("Cost", .vNum 100)] ["journal", "title"]) :=
  ⟨by decide, C4_amended _ _ _ (by decide)⟩

/-- JavaScript `parseFloat` on a cell value, modelled for the inputs this
data contains: numeric cells parse to themselves, string cells parse as
(optionally signed) integer literals after trimming, everything else is NaN
(`none`).  The cost-fallback claim is conditioned only on the parse failing
or yielding zero, so the exact string grammar is immaterial to it. -/
def jsParseFloat : CellValue → Option ℚ
  | .vNull => none
  | .vNum n => some (n : ℚ)
  | .vStr s => ((strTrim s).toInt?).map fun n => (n : ℚ)
  | .vBool _ => none

/-- JavaScript `x || fallback` for a numeric `x`: NaN (`none`) and `0` are
falsy and select the fallback; any other number is returned unchanged. -/
def jsOrNum (x : Option ℚ) (fallback : ℚ) : ℚ :=
  match x with
  | none => fallback
  | some v => if v = 0 then fallback else v

/-- `Math.floor(Math.random() * 30000) + 20000`, the synthesized cost of
`app1.js` line 759 / `part_000` line 235. -/
def app1FallbackCost (r : ℚ) : ℤ := ⌊r * 30000⌋ + 20000

/-- `Math.floor(Math.random() * 40000) + 15000`, the synthesized cost of
`app5.js` line 384. -/
def app5FallbackCost (r : ℚ) : ℤ := ⌊r * 40000⌋ + 15000

/-- The cost used for a subscription record in `app1.js` line 759:
`parseFloat(findValue(row, [...])) || Math.floor(Math.random()*30000) + 20000`. -/
def app1Cost (parsed : Option ℚ) (r : ℚ) : ℚ :=
  jsOrNum parsed ((app1FallbackCost r : ℤ) : ℚ)

/-- The cost used for a subscription record in `app5.js` line 384:
`parseFloat(cost) || Math.floor(Math.random()*40000) + 15000`. -/
def app5Cost (parsed : Option ℚ) (r : ℚ) : ℚ :=
  jsOrNum parsed ((app5FallbackCost r : ℤ) : ℚ)

/-- C6 (confirmed): whenever the cost cell fails numeric parsing (NaN) or
parses to zero, the cost that will be stored is the synthesized fallback,
which for every possible pseudo-random draw `0 ≤ r < 1` lies within the fixed
fallback range of the variant (`app1.js`: 20000 to 49999 inclusive;
`app5.js`: 15000 to 54999 inclusive) and is strictly positive. -/
theorem C6_cost_fallback_bounds (parsed : Option ℚ) (r : ℚ)
    (h0 : 0 ≤ r) (h1 : r < 1) (hp : parsed = none ∨ parsed = some 0) :
    ((20000 : ℚ) ≤ app1Cost parsed r ∧ app1Cost parsed r ≤ 49999 ∧
      0 < app1Cost parsed r) ∧
    ((15000 : ℚ) ≤ app5Cost parsed r ∧ app5Cost parsed r ≤ 54999 ∧
      0 < app5Cost parsed r) := by
  have hc1 : app1Cost parsed r = ((app1FallbackCost r : ℤ) : ℚ) := by
    rcases hp with h | h <;> simp [app1Cost, jsOrNum, h]
  have hc5 : app5Cost parsed r = ((app5FallbackCost r : ℤ) : ℚ) := by
    rcases hp with h | h <;> simp [app5Cost, jsOrNum, h]
  have hf10 : (0 : ℤ) ≤ ⌊r * 30000⌋ := by
    apply Int.floor_nonneg.mpr
    positivity
  have hf11 : ⌊r * 30000⌋ < 30000 := by
    apply Int.floor_lt.mpr
    push_cast
    nlinarith
  have hf50 : (0 : ℤ) ≤ ⌊r * 40000⌋ := by
    apply Int.floor_nonneg.mpr
    positivity
  have hf51 : ⌊r * 40000⌋ < 40000 := by
    apply Int.floor_lt.mpr
    push_cast
    nlinarith
  refine ⟨⟨?_, ?_, ?_⟩, ⟨?_, ?_, ?_⟩⟩
  · rw [hc1]; unfold app1FallbackCost
    exact_mod_cast (show (20000 : ℤ) ≤ ⌊r * 30000⌋ + 20000 by omega)
  · rw [hc1]; unfold app1FallbackCost
    exact_mod_cast (show ⌊r * 30000⌋ + 20000 ≤ (49999 : ℤ) by omega)
  · rw [hc1]; unfold app1FallbackCost
    exact_mod_cast (show (0 : ℤ) < ⌊r * 30000⌋ + 20000 by omega)
  · rw [hc5]; unfold app5FallbackCost
    exact_mod_cast (show (15000 : ℤ) ≤ ⌊r * 40000⌋ + 15000 by omega)
  · rw [hc5]; unfold app5FallbackCost
    exact_mod_cast (show ⌊r * 40000⌋ + 15000 ≤ (54999 : ℤ) by omega)
  · rw [hc5]; unfold app5FallbackCost
    exact_mod_cast (show (0 : ℤ) < ⌊r * 40000⌋ + 15000 by omega)

/-- C6 witness: a concrete unparseable cost cell (`none`, i.e. NaN) and the
concrete draw `r = 0` satisfy the hypotheses, and the resulting synthesized
costs obey the range bounds. -/
theorem C6_witness :
    ((20000 : ℚ) ≤ app1Cost none 0 ∧ app1Cost none 0 ≤ 49999 ∧
      0 < app1Cost none 0) ∧
    ((15000 : ℚ) ≤ app5Cost none 0 ∧ app5Cost none 0 ≤ 54999 ∧
      0 < app5Cost none 0) :=
  C6_cost_fallback_bounds none 0 (le_refl 0) zero_lt_one (Or.inl rfl)

/-- The five `Math.random()` draws consumed by one synthesized browsing
event, in the order the source draws them. -/
structure EvDraw where
  dayR : ℚ
  viewR : ℚ
  durR : ℚ
  pageR : ℚ
  trialR : ℚ
deriving DecidableEq, Repr

/-- Default draw used past the end of a finite draw list. -/
def defaultDraw : EvDraw := ⟨0, 0, 0, 0, 0⟩

/-- A row of the `browsing_history` table as inserted by `app1.js` /
`part_000` (no `downloaded_samples` column there).  The view date is the day
number `today - daysAgo`. -/
structure BrowseEvent where
  universityId : ℕ
  journalId : ℕ
  viewDate : ℤ
  viewCount : ℤ
  sessionDuration : ℤ
  pagesViewed : ℤ
  requestedTrial : ℤ
deriving DecidableEq, Repr

/-- One synthesized browsing event, `app1.js` lines 799-815:
`daysAgo = Math.floor(Math.random()*365)`, `view_count = floor(r*6)+1`,
`session_duration = floor(r*1500)+300`, `pages_viewed = floor(r*12)+2`,
`requested_trial = isSubscribed ? 0 : Math.random() < 0.25 ? 1 : 0`. -/
def mkEventApp1 (today : ℤ) (uid jid : ℕ) (isSubscribed : Bool) (d : EvDraw) :
    BrowseEvent where
  universityId := uid
  journalId := jid
  viewDate := today - ⌊d.dayR * 365⌋
  viewCount := ⌊d.viewR * 6⌋ + 1
  sessionDuration := ⌊d.durR * 1500⌋ + 300
  pagesViewed := ⌊d.pageR * 12⌋ + 2
  requestedTrial := if isSubscribed then 0 else if d.trialR < 1/4 then 1 else 0

/-- The batch of browsing events one row produces in `app1.js` lines 797-816:
`sessions = isSubscribed ? floor(r*8)+3 : floor(r*20)+8`, then `sessions`
events.  Valid draws satisfy `0 ≤ r < 1`, making `Int.toNat` the identity on
the floored session draw. -/
def browsingEventsApp1 (today : ℤ) (uid jid : ℕ) (isSubscribed : Bool)
    (sessR : ℚ) (draws : List EvDraw) : List BrowseEvent :=
  let sessions := if isSubscribed then (⌊sessR * 8⌋).toNat + 3
                  else (⌊sessR * 20⌋).toNat + 8
  (List.range sessions).map fun i =>
    mkEventApp1 today uid jid isSubscribed (draws.getD i defaultDraw)

/-- One synthesized browsing event, `unnamed/part_000` lines 279-295:
`view_count = floor(r*5)+1`, `session_duration = floor(r*1200)+180`,
`pages_viewed = floor(r*10)+1`,
`requested_trial = isSubscribed ? 0 : Math.random() < 0.3 ? 1 : 0`. -/
def mkEventP0 (today : ℤ) (uid jid : ℕ) (isSubscribed : Bool) (d : EvDraw) :
    BrowseEvent where
  universityId := uid
  journalId := jid
  viewDate := today - ⌊d.dayR * 365⌋
  viewCount := ⌊d.viewR * 5⌋ + 1
  sessionDuration := ⌊d.durR * 1200⌋ + 180
  pagesViewed := ⌊d.pageR * 10⌋ + 1
  requestedTrial := if isSubscribed then 0 else if d.trialR < 3/10 then 1 else 0

/-- The batch of browsing events one row produces in `unnamed/part_000`
lines 277-296: `sessions = isSubscribed ? floor(r*5)+2 : floor(r*15)+5`. -/
def browsingEventsP0 (today : ℤ) (uid jid : ℕ) (isSubscribed : Bool)
    (sessR : ℚ) (draws : List EvDraw) : List BrowseEvent :=
  let sessions := if isSubscribed then (⌊sessR * 5⌋).toNat + 2
                  else (⌊sessR * 15⌋).toNat + 5
  (List.range sessions).map fun i =>
    mkEventP0 today uid jid isSubscribed (draws.getD i defaultDraw)

/-- C10 (confirmed): in both cited variants, every browsing event synthesized
for a subscribed (university, journal) pair has `requested_trial` exactly 0,
for every possible pseudo-random draw — while for a non-subscribed pair the
Bernoulli draw can produce `requested_trial = 1` (witnessed by concrete
draws). -/
theorem C10_trial_zero_when_subscribed :
    (∀ (today : ℤ) (uid jid : ℕ) (sessR : ℚ) (draws : List EvDraw)
      (e : BrowseEvent), e ∈ browsingEventsApp1 today uid jid true sessR draws →
        e.requestedTrial = 0) ∧
    (∀ (today : ℤ) (uid jid : ℕ) (sessR : ℚ) (draws : List EvDraw)
      (e : BrowseEvent), e ∈ browsingEventsP0 today uid jid true sessR draws →
        e.requestedTrial = 0) ∧
    (∃ e, e ∈ browsingEventsApp1 0 1 1 false 0 [defaultDraw] ∧
      e.requestedTrial = 1) ∧
    (∃ e, e ∈ browsingEventsP0 0 1 1 false 0 [defaultDraw] ∧
      e.requestedTrial = 1) := by
  refine ⟨?_, ?_, ?_, ?_⟩
  · intro today uid jid sessR draws e he
    simp only [browsingEventsApp1, List.mem_map] at he
    obtain ⟨i, _, rfl⟩ := he
    simp [mkEventApp1]
  · intro today uid jid sessR draws e he
    simp only [browsingEventsP0, List.mem_map] at he
    obtain ⟨i, _, rfl⟩ := he
    simp [mkEventP0]
  · refine ⟨mkEventApp1 0 1 1 false defaultDraw, ?_, ?_⟩
    · simp only [browsingEventsApp1, zero_mul, Int.floor_zero, Int.toNat_zero,
        Nat.zero_add, if_neg Bool.false_ne_true, List.mem_map]
      exact ⟨0, by simp, by simp [List.getD]⟩
    · simp only [mkEventApp1, defaultDraw]
      norm_num
  · refine ⟨mkEventP0 0 1 1 false defaultDraw, ?_, ?_⟩
    · simp only [browsingEventsP0, zero_mul, Int.floor_zero, Int.toNat_zero,
        Nat.zero_add, if_neg Bool.false_ne_true, List.mem_map]
      exact ⟨0, by simp, by simp [List.getD]⟩
    · simp only [mkEventP0, defaultDraw]
      norm_num

/-- C10 witness: a concrete subscribed event is a member of a concrete
synthesized batch and carries `requested_trial = 0`. -/
theorem C10_witness :
    mkEventApp1 0 1 1 true defaultDraw ∈ browsingEventsApp1 0 1 1 true 0 [] ∧
    (mkEventApp1 0 1 1 true defaultDraw).requestedTrial = 0 :=
  ⟨by simp [browsingEventsApp1, List.mem_map, List.getD],
   C10_trial_zero_when_subscribed.1 0 1 1 0 [] _
     (by simp [browsingEventsApp1, List.mem_map, List.getD])⟩

/-- A row of the `universities` table. -/
structure University where
  id : ℕ
  name : String
  country : String
  utype : String
deriving DecidableEq, Repr

/-- A row of the `journals` table as inserted by `app1.js` line 775:
`INSERT INTO journals (title, publisher, subject_area, keywords, description)`.
Raw cell values flow into the title/publisher/subject columns unchanged. -/
structure Journal where
  id : ℕ
  title : CellValue
  publisher : CellValue
  subjectArea : CellValue
  keywords : String
  description : String
deriving DecidableEq, Repr

/-- A row of the `subscriptions` table as inserted by `app1.js` lines 790-794. -/
structure Subscription where
  universityId : ℕ
  journalId : ℕ
  subscriptionType : String
  startDate : String
  endDate : String
  annualCost : ℚ
  status : String
deriving DecidableEq, Repr

/-- The four SQLite tables plus the auto-increment counters for the two
tables whose generated keys (`this.lastID`) the code reads back. -/
structure Store where
  universities : List University
  journals : List Journal
  subscriptions : List Subscription
  browsing : List BrowseEvent
  nextJournalId : ℕ
  nextUniversityId : ℕ
deriving DecidableEq, Repr

/-- The store with all four collections empty. -/
def emptyStore : Store := ⟨[], [], [], [], 0, 0⟩

/-- `generateJournalKeywords` from `app1.js` lines 871-891: always include the
lower-cased title and subject (when truthy), append fixed keyword clusters
when the lower-cased title contains trigger substrings, join with ", ". -/
def generateJournalKeywords (title subject : String) : String :=
  let titleLower := strLower title
  let keywords : List String :=
    (if title == "" then [] else [strLower title]) ++
    (if subject == "" then [] else [strLower subject]) ++
    (if strIncludes titleLower "business" || strIncludes titleLower "strategy" then
      ["business strategy", "management", "strategic planning"] else []) ++
    (if strIncludes titleLower "ai" || strIncludes titleLower "artificial intelligence" then
      ["artificial intelligence", "machine learning", "AI strategy"] else []) ++
    (if strIncludes titleLower "technology" || strIncludes titleLower "digital" then
      ["technology strategy", "digital transformation", "innovation"] else [])
  String.intercalate ", " keywords

/-- A JavaScript expression `maybeValue` coming from `findValue`, which
returns the found value or `null`. -/
def optCell (o : Option CellValue) : CellValue := o.getD .vNull

/-- JavaScript `findValue(...) || defaultValue`. -/
def jsOrCell (o : Option CellValue) (d : CellValue) : CellValue :=
  if jsFalsy (optCell o) then d else optCell o

/-- Journal-title candidate list, `app1.js` lines 743-745. -/
def titleKeys : List String := ["journal", "title", "publication", "name", "journal_title"]

/-- Subscription-flag candidate list, `app1.js` lines 752-754. -/
def currentKeys : List String := ["current", "current_year", "2024", "subscribed"]

/-- Publisher candidate list, `app1.js` line 757. -/
def publisherKeys : List String := ["publisher", "company"]

/-- Subject candidate list, `app1.js` line 758. -/
def subjectKeys : List String := ["subject", "category", "area"]

/-- Cost candidate list, `app1.js` line 759. -/
def costKeys : List String := ["cost", "price", "amount"]

/-- The pseudo-random draws one spreadsheet row consumes: the cost-fallback
draw, the session-count draw, and the per-event draws. -/
structure RowRand where
  costR : ℚ
  sessR : ℚ
  evDraws : List EvDraw
deriving DecidableEq

/-- The values the synchronous part of the `data.forEach` body of
`processSubscriptionData` (`app1.js` lines 742-761) computes for one row
before scheduling its journal lookup. -/
structure RowData where
  title : CellValue
  isSub : Bool
  publisher : CellValue
  subject : CellValue
  cost : ℚ
  sessR : ℚ
  evDraws : List EvDraw
deriving DecidableEq

/-- The synchronous extraction step of `app1.js` lines 742-761: resolve the
journal title (skipping the row when it is falsy), the subscription flag, the
publisher/subject defaults, and the cost with its random fallback. -/
def extractRowApp1 (row : Row) (rr : RowRand) : Option RowData :=
  let titleCell := optCell (findValue row titleKeys)
  if jsFalsy titleCell then none
  else some {
    title := titleCell
    isSub := parseBoolean (optCell (findValue row currentKeys))
    publisher := jsOrCell (findValue row publisherKeys) (.vStr "Unknown")
    subject := jsOrCell (findValue row subjectKeys) (.vStr "General")
    cost := app1Cost (jsParseFloat (optCell (findValue row costKeys))) rr.costR
    sessR := rr.sessR
    evDraws := rr.evDraws }

/-- The row extractions that survive the skip-on-falsy-title test, in row
order. -/
def validExtractsApp1 (rows : List (Row × RowRand)) : List RowData :=
  rows.filterMap fun p => extractRowApp1 p.1 p.2

/-- A pending database operation of one row: the journal-title `SELECT`
(`app1.js` line 763), the journal `INSERT` scheduled from a lookup miss
(line 775), or the `createSubscriptionData` body scheduled once the journal
id is known (lines 788-816). -/
inductive Op where
  | lookupJournal : RowData → Op
  | insertJournal : RowData → Op
  | createSub : RowData → ℕ → Op
deriving DecidableEq

/-- The row data an operation belongs to. -/
def opData : Op → RowData
  | .lookupJournal d => d
  | .insertJournal d => d
  | .createSub d _ => d

/-- Fuel weight of an operation: each step pops one operation and appends
operations of strictly smaller total weight, so the total weight bounds the
number of steps. -/
def wt : Op → ℕ
  | .lookupJournal _ => 3
  | .insertJournal _ => 2
  | .createSub _ _ => 1

/-- Total fuel weight of a queue. -/
def sumW (ops : List Op) : ℕ := (ops.map wt).sum

/-- The subscription row `app1.js` lines 790-794 insert. -/
def mkSubscription (uid jid : ℕ) (cost : ℚ) : Subscription :=
  ⟨uid, jid, "institutional", "2024-01-01", "2024-12-31", cost, "active"⟩

/-- The journal row `app1.js` lines 774-776 insert on a lookup miss. -/
def newJournal (nm : String) (d : RowData) (jid : ℕ) : Journal :=
  ⟨jid, d.title, d.publisher, d.subject,
   generateJournalKeywords (jsString d.title) (jsString d.subject),
   "Journal from " ++ nm⟩

/-- The node-sqlite3 statement queue of `processSubscriptionData`: statements
execute first-in first-out, and a statement issued from a result callback
joins the back of the queue.  A journal lookup schedules either the
`createSubscriptionData` body (hit) or the journal `INSERT` (miss); the
`INSERT` hands `this.lastID` to the `createSubscriptionData` body it
schedules; the body appends the subscription row (when the flag is set) and
the synthesized browsing batch.  The fuel argument dominates the step count
(`sumW` of the initial queue suffices). -/
def runOps (uid : ℕ) (nm : String) (today : ℤ) : ℕ → List Op → Store → Store
  | 0, _, s => s
  | _ + 1, [], s => s
  | fuel + 1, .lookupJournal d :: rest, s =>
    match s.journals.find? (fun j => j.title == d.title) with
    | some j => runOps uid nm today fuel (rest ++ [.createSub d j.id]) s
    | none => runOps uid nm today fuel (rest ++ [.insertJournal d]) s
  | fuel + 1, .insertJournal d :: rest, s =>
    runOps uid nm today fuel (rest ++ [.createSub d s.nextJournalId])
      { s with
        journals := s.journals ++ [newJournal nm d s.nextJournalId],
        nextJournalId := s.nextJournalId + 1 }
  | fuel + 1, .createSub d jid :: rest, s =>
    runOps uid nm today fuel rest
      { s with
        subscriptions := s.subscriptions ++
          (if d.isSub then [mkSubscription uid jid d.cost] else []),
        browsing := s.browsing ++
          browsingEventsApp1 today uid jid d.isSub d.sessR d.evDraws }

/-- `processSubscriptionData` of `app1.js` lines 736-825 for a known
university id: first the two `DELETE ... WHERE university_id = ?` statements
(lines 739-740), then the synchronous `forEach` queues one journal lookup per
surviving row, and the queue runs to completion. -/
def rowQueue (rows : List (Row × RowRand)) : List Op :=
  (validExtractsApp1 rows).map Op.lookupJournal

def procSubApp1 (uid : ℕ) (nm : String) (today : ℤ)
    (rows : List (Row × RowRand)) (s : Store) : Store :=
  let s0 := { s with
    subscriptions := s.subscriptions.filter fun x => !(x.universityId == uid),
    browsing := s.browsing.filter fun x => !(x.universityId == uid) }
  runOps uid nm today (sumW (rowQueue rows)) (rowQueue rows) s0

/-- The pure effect of running a queue: the resulting journal table, the
freshly inserted subscriptions and browsing events (in insertion order), and
the resulting journal counter.  `runOps` equals its start state with this
delta applied (`runOps_eq_delta`); the delta depends only on the queue, the
journal table and the journal counter. -/
def runDelta (uid : ℕ) (nm : String) (today : ℤ) :
    ℕ → List Op → List Journal → ℕ →
    List Journal × List Subscription × List BrowseEvent × ℕ
  | 0, _, js, nj => (js, [], [], nj)
  | _ + 1, [], js, nj => (js, [], [], nj)
  | fuel + 1, .lookupJournal d :: rest, js, nj =>
    match js.find? (fun j => j.title == d.title) with
    | some j => runDelta uid nm today fuel (rest ++ [.createSub d j.id]) js nj
    | none => runDelta uid nm today fuel (rest ++ [.insertJournal d]) js nj
  | fuel + 1, .insertJournal d :: rest, js, nj =>
    runDelta uid nm today fuel (rest ++ [.createSub d nj]) (js ++ [newJournal nm d nj]) (nj + 1)
  | fuel + 1, .createSub d jid :: rest, js, nj =>
    let r := runDelta uid nm today fuel rest js nj
    (r.1,
     (if d.isSub then [mkSubscription uid jid d.cost] else []) ++ r.2.1,
     browsingEventsApp1 today uid jid d.isSub d.sessR d.evDraws ++ r.2.2.1,
     r.2.2.2)

/-- Frame lemma: running a queue only appends freshly created subscriptions
and browsing events after the existing rows, leaves the universities table
untouched, and transforms the journal table and journal counter by a delta
that depends only on the queue, the journal table and the journal counter —
not on the subscription or browsing rows already present. -/
theorem runOps_eq_delta (uid : ℕ) (nm : String) (today : ℤ) :
    ∀ (fuel : ℕ) (ops : List Op) (s : Store),
    runOps uid nm today fuel ops s =
      ⟨s.universities,
       (runDelta uid nm today fuel ops s.journals s.nextJournalId).1,
       s.subscriptions ++ (runDelta uid nm today fuel ops s.journals s.nextJournalId).2.1,
       s.browsing ++ (runDelta uid nm today fuel ops s.journals s.nextJournalId).2.2.1,
       (runDelta uid nm today fuel ops s.journals s.nextJournalId).2.2.2,
       s.nextUniversityId⟩ := by
  intro fuel
  induction fuel with
  | zero => intro ops s; simp [runOps, runDelta]
  | succ f ih =>
    intro ops s
    cases ops with
    | nil => simp [runOps, runDelta]
    | cons op rest =>
      cases op with
      | lookupJournal d =>
        cases hfind : s.journals.find? (fun j => j.title == d.title) with
        | some j =>
          simp only [runOps, runDelta, hfind]
          exact ih (rest ++ [.createSub d j.id]) s
        | none =>
          simp only [runOps, runDelta, hfind]
          exact ih (rest ++ [.insertJournal d]) s
      | insertJournal d =>
        simp only [runOps, runDelta]
        rw [ih]
      | createSub d jid =>
        simp only [runOps, runDelta]
        rw [ih]
        simp [List.append_assoc]

/-- Every event of a synthesized batch carries the university id it was
generated for. -/
theorem browsingEvents_uid (today : ℤ) (uid jid : ℕ) (b : Bool) (r : ℚ)
    (ds : List EvDraw) :
    ∀ e ∈ browsingEventsApp1 today uid jid b r ds, e.universityId = uid := by
  intro e he
  simp only [browsingEventsApp1, List.mem_map] at he
  obtain ⟨i, _, rfl⟩ := he
  rfl

/-- Every subscription a queue inserts belongs to the processed university,
has the constant type, calendar-year bounds and active status, and carries
the cost of a row whose subscription flag parsed to true — provided every
operation of the queue stems from the row collection `D`. -/
theorem runDelta_sub_mem (uid : ℕ) (nm : String) (today : ℤ) (D : List RowData) :
    ∀ (fuel : ℕ) (ops : List Op) (js : List Journal) (nj : ℕ),
    (∀ op ∈ ops, opData op ∈ D) →
    ∀ x ∈ (runDelta uid nm today fuel ops js nj).2.1,
      x.universityId = uid ∧ x.subscriptionType = "institutional" ∧
      x.startDate = "2024-01-01" ∧ x.endDate = "2024-12-31" ∧
      x.status = "active" ∧ ∃ d ∈ D, d.isSub = true ∧ x.annualCost = d.cost := by
  intro fuel
  induction fuel with
  | zero => intro ops js nj _ x hx; simp [runDelta] at hx
  | succ f ih =>
    intro ops js nj hops x hx
    cases ops with
    | nil => simp [runDelta] at hx
    | cons op rest =>
      have hrest : ∀ op ∈ rest, opData op ∈ D := by
        intro o ho; exact hops o (List.mem_cons_of_mem _ ho)
      have hhead : opData op ∈ D := hops op (List.mem_cons_self op rest)
      cases op with
      | lookupJournal d =>
        cases hfind : js.find? (fun j => j.title == d.title) with
        | some j =>
          simp only [runDelta, hfind] at hx
          refine ih (rest ++ [.createSub d j.id]) js nj ?_ x hx
          intro o ho
          rcases List.mem_append.mp ho with h | h
          · exact hrest o h
          · simp only [List.mem_singleton] at h; subst h; exact hhead
        | none =>
          simp only [runDelta, hfind] at hx
          refine ih (rest ++ [.insertJournal d]) js nj ?_ x hx
          intro o ho
          rcases List.mem_append.mp ho with h | h
          · exact hrest o h
          · simp only [List.mem_singleton] at h; subst h; exact hhead
      | insertJournal d =>
        simp only [runDelta] at hx
        refine ih (rest ++ [.createSub d nj]) (js ++ [newJournal nm d nj]) (nj + 1) ?_ x hx
        intro o ho
        rcases List.mem_append.mp ho with h | h
        · exact hrest o h
        · simp only [List.mem_singleton] at h; subst h; exact hhead
      | createSub d jid =>
        simp only [runDelta, List.mem_append] at hx
        rcases hx with hx | hx
        · by_cases hsub : d.isSub
          · simp only [hsub, if_true, List.mem_singleton] at hx
            subst hx
            exact ⟨rfl, rfl, rfl, rfl, rfl, d, hhead, hsub, rfl⟩
          · simp [hsub] at hx
        · exact ih rest js nj hrest x hx

/-- Every browsing event a queue inserts belongs to the processed
university. -/
theorem runDelta_brow_mem (uid : ℕ) (nm : String) (today : ℤ) :
    ∀ (fuel : ℕ) (ops : List Op) (js : List Journal) (nj : ℕ),
    ∀ x ∈ (runDelta uid nm today fuel ops js nj).2.2.1, x.universityId = uid := by
  intro fuel
  induction fuel with
  | zero => intro ops js nj x hx; simp [runDelta] at hx
  | succ f ih =>
    intro ops js nj x hx
    cases ops with
    | nil => simp [runDelta] at hx
    | cons op rest =>
      cases op with
      | lookupJournal d =>
        cases hfind : js.find? (fun j => j.title == d.title) with
        | some j =>
          simp only [runDelta, hfind] at hx
          exact ih _ js nj x hx
        | none =>
          simp only [runDelta, hfind] at hx
          exact ih _ js nj x hx
      | insertJournal d =>
        simp only [runDelta] at hx
        exact ih _ _ _ x hx
      | createSub d jid =>
        simp only [runDelta, List.mem_append] at hx
        rcases hx with hx | hx
        · exact browsingEvents_uid today uid jid d.isSub d.sessR d.evDraws x hx
        · exact ih rest js nj x hx

/-- Number of subscriptions an operation will eventually insert: one if its
row's flag parsed true, zero otherwise. -/
def opSubCnt (op : Op) : ℕ := if (opData op).isSub then 1 else 0

/-- Total subscription count pending in a queue. -/
def opsSubCnt (ops : List Op) : ℕ := (ops.map opSubCnt).sum

/-- A queue of weight zero is empty. -/
theorem sumW_eq_zero {ops : List Op} (h : sumW ops = 0) : ops = [] := by
  cases ops with
  | nil => rfl
  | cons op rest => exfalso; cases op <;> simp [sumW, wt] at h

/-- With enough fuel, a queue inserts exactly one subscription per pending
operation whose row flag parsed true. -/
theorem runDelta_sub_count (uid : ℕ) (nm : String) (today : ℤ) :
    ∀ (fuel : ℕ) (ops : List Op) (js : List Journal) (nj : ℕ),
    sumW ops ≤ fuel →
    (runDelta uid nm today fuel ops js nj).2.1.length = opsSubCnt ops := by
  intro fuel
  induction fuel with
  | zero =>
    intro ops js nj h
    have : ops = [] := sumW_eq_zero (Nat.le_zero.mp h)
    subst this
    simp [runDelta, opsSubCnt]
  | succ f ih =>
    intro ops js nj h
    cases ops with
    | nil => simp [runDelta, opsSubCnt]
    | cons op rest =>
      cases op with
      | lookupJournal d =>
        have hw : sumW (rest ++ [Op.createSub d 0]) ≤ f := by
          simp only [sumW, wt, List.map_append, List.sum_append, List.map_cons,
            List.sum_cons, List.map_nil, List.sum_nil] at h ⊢
          omega
        cases hfind : js.find? (fun j => j.title == d.title) with
        | some j =>
          have hstep := ih (rest ++ [Op.createSub d j.id]) js nj (by
            simp only [sumW, wt, List.map_append, List.sum_append, List.map_cons,
              List.sum_cons, List.map_nil, List.sum_nil] at h ⊢
            omega)
          simp only [runDelta, hfind]
          rw [hstep]
          simp [opsSubCnt, opSubCnt, opData, List.map_append]
          omega
        | none =>
          have hstep := ih (rest ++ [Op.insertJournal d]) js nj (by
            simp only [sumW, wt, List.map_append, List.sum_append, List.map_cons,
              List.sum_cons, List.map_nil, List.sum_nil] at h ⊢
            omega)
          simp only [runDelta, hfind]
          rw [hstep]
          simp [opsSubCnt, opSubCnt, opData, List.map_append]
          omega
      | insertJournal d =>
        have hstep := ih (rest ++ [Op.createSub d nj]) (js ++ [newJournal nm d nj]) (nj + 1) (by
          simp only [sumW, wt, List.map_append, List.sum_append, List.map_cons,
            List.sum_cons, List.map_nil, List.sum_nil] at h ⊢
          omega)
        simp only [runDelta]
        rw [hstep]
        simp [opsSubCnt, opSubCnt, opData, List.map_append]
        omega
      | createSub d jid =>
        have hstep := ih rest js nj (by
          simp only [sumW, wt, List.map_cons, List.sum_cons] at h ⊢
          omega)
        simp only [runDelta]
        rw [List.length_append, hstep]
        by_cases hsub : d.isSub <;>
          simp [hsub, opsSubCnt, opSubCnt, opData]

/-- When a journal title is already present, running any freshly scheduled
queue (one containing no pending insert of that title) leaves the set of
journal rows with that title unchanged: every lookup of the title hits. -/
theorem runDelta_title_count (uid : ℕ) (nm : String) (today : ℤ) (T : CellValue) :
    ∀ (fuel : ℕ) (ops : List Op) (js : List Journal) (nj : ℕ),
    (∃ j ∈ js, j.title = T) →
    (∀ d, Op.insertJournal d ∈ ops → ¬ d.title = T) →
    (runDelta uid nm today fuel ops js nj).1.filter (fun j => j.title == T)
      = js.filter (fun j => j.title == T) := by
  intro fuel
  induction fuel with
  | zero => intro ops js nj _ _; simp [runDelta]
  | succ f ih =>
    intro ops js nj hpres hins
    cases ops with
    | nil => simp [runDelta]
    | cons op rest =>
      have hrest : ∀ d, Op.insertJournal d ∈ rest → ¬ d.title = T := by
        intro d hd; exact hins d (List.mem_cons_of_mem _ hd)
      cases op with
      | lookupJournal d =>
        cases hfind : js.find? (fun j => j.title == d.title) with
        | some j =>
          simp only [runDelta, hfind]
          refine ih (rest ++ [.createSub d j.id]) js nj hpres ?_
          intro d' hd'
          rcases List.mem_append.mp hd' with hh | hh
          · exact hrest d' hh
          · simp at hh
        | none =>
          simp only [runDelta, hfind]
          refine ih (rest ++ [.insertJournal d]) js nj hpres ?_
          intro d' hd'
          rcases List.mem_append.mp hd' with hh | hh
          · exact hrest d' hh
          · simp only [List.mem_singleton, Op.insertJournal.injEq] at hh
            subst hh
            intro hdT
            obtain ⟨j0, hj0, hj0T⟩ := hpres
            have := List.find?_eq_none.mp hfind j0 hj0
            rw [hj0T, hdT] at this
            simp at this
      | insertJournal d =>
        have hdT : ¬ d.title = T := hins d (List.mem_cons_self _ _)
        have hstep := ih (rest ++ [Op.createSub d nj]) (js ++ [newJournal nm d nj]) (nj + 1)
          (by obtain ⟨j0, hj0, hj0T⟩ := hpres
              exact ⟨j0, List.mem_append_left _ hj0, hj0T⟩)
          (by intro d' hd'
              rcases List.mem_append.mp hd' with hh | hh
              · exact hrest d' hh
              · simp at hh)
        simp only [runDelta]
        rw [hstep]
        simp only [List.filter_append]
        have : (([newJournal nm d nj] : List Journal).filter fun j => j.title == T) = [] := by
          simp [newJournal, hdT]
        rw [this, List.append_nil]
      | createSub d jid =>
        simp only [runDelta]
        exact ih rest js nj hpres hrest

/-- Closed-form state of `processSubscriptionData`: prior subscription and
browsing rows of the university are deleted, the queue's freshly inserted
rows are appended, and the journal table evolves by the `runDelta` of the
queue. -/
theorem procSub_state (uid : ℕ) (nm : String) (today : ℤ)
    (rows : List (Row × RowRand)) (s : Store) :
    procSubApp1 uid nm today rows s =
      ⟨s.universities,
       (runDelta uid nm today (sumW (rowQueue rows)) (rowQueue rows)
          s.journals s.nextJournalId).1,
       (s.subscriptions.filter fun x => !(x.universityId == uid)) ++
         (runDelta uid nm today (sumW (rowQueue rows)) (rowQueue rows)
            s.journals s.nextJournalId).2.1,
       (s.browsing.filter fun x => !(x.universityId == uid)) ++
         (runDelta uid nm today (sumW (rowQueue rows)) (rowQueue rows)
            s.journals s.nextJournalId).2.2.1,
       (runDelta uid nm today (sumW (rowQueue rows)) (rowQueue rows)
          s.journals s.nextJournalId).2.2.2,
       s.nextUniversityId⟩ := by
  unfold procSubApp1
  rw [runOps_eq_delta]

/-- Filtering for a predicate after filtering for its negation is empty. -/
theorem filter_not_filter {α : Type} (p : α → Bool) (l : List α) :
    (l.filter fun x => !(p x)).filter p = [] := by
  induction l with
  | nil => rfl
  | cons a t ih => by_cases h : p a <;> simp [h, ih]

/-- Every operation of a row queue stems from the surviving row
extractions. -/
theorem rowQueue_opData (rows : List (Row × RowRand)) :
    ∀ op ∈ rowQueue rows, opData op ∈ validExtractsApp1 rows := by
  intro op hop
  simp only [rowQueue, List.mem_map] at hop
  obtain ⟨d, hd, rfl⟩ := hop
  simpa [opData] using hd

/-- A row queue contains no pending journal inserts (only lookups). -/
theorem rowQueue_no_insert (rows : List (Row × RowRand)) :
    ∀ d, Op.insertJournal d ∉ rowQueue rows := by
  intro d hd
  simp only [rowQueue, List.mem_map] at hd
  obtain ⟨d', _, h⟩ := hd
  cases h

/-- C2 (confirmed): re-ingesting a university's file deletes all prior
Subscription and BrowsingHistoryEvent rows for that university before
inserting new ones.  Consequently the university's final subscription and
browsing state after two successive ingestions equals the state produced by
processing only the second file against a store holding no subscription or
browsing rows at all (only the journal table the first run left behind):
nothing of the first file's subscription flags survives. -/
theorem C2_replace_not_merge (uid : ℕ) (nm : String) (today : ℤ)
    (rows1 rows2 : List (Row × RowRand)) (s₀ : Store) :
    ((procSubApp1 uid nm today rows2 (procSubApp1 uid nm today rows1 s₀)).subscriptions.filter
        fun x => x.universityId == uid)
      = (procSubApp1 uid nm today rows2
          ⟨[], (procSubApp1 uid nm today rows1 s₀).journals, [], [],
           (procSubApp1 uid nm today rows1 s₀).nextJournalId, 0⟩).subscriptions
    ∧ ((procSubApp1 uid nm today rows2 (procSubApp1 uid nm today rows1 s₀)).browsing.filter
        fun x => x.universityId == uid)
      = (procSubApp1 uid nm today rows2
          ⟨[], (procSubApp1 uid nm today rows1 s₀).journals, [], [],
           (procSubApp1 uid nm today rows1 s₀).nextJournalId, 0⟩).browsing := by
  rw [procSub_state uid nm today rows2 (procSubApp1 uid nm today rows1 s₀),
      procSub_state uid nm today rows2
        ⟨[], (procSubApp1 uid nm today rows1 s₀).journals, [], [],
         (procSubApp1 uid nm today rows1 s₀).nextJournalId, 0⟩]
  constructor
  · rw [List.filter_append, filter_not_filter]
    rw [List.filter_eq_self.mpr]
    · simp
    · intro x hx
      have := runDelta_sub_mem uid nm today (validExtractsApp1 rows2) _ _ _ _
        (rowQueue_opData rows2) x hx
      simp [this.1]
  · rw [List.filter_append, filter_not_filter]
    rw [List.filter_eq_self.mpr]
    · simp
    · intro x hx
      have := runDelta_brow_mem uid nm today _ _ _ _ x hx
      simp [this]

/-- Count form of the pending-subscription invariant over a row queue. -/
theorem opsSubCnt_rowQueue (l : List RowData) :
    opsSubCnt (l.map Op.lookupJournal) = (l.filter fun d => d.isSub).length := by
  induction l with
  | nil => rfl
  | cons d t ih =>
    by_cases h : d.isSub <;>
      simp [opsSubCnt, opSubCnt, opData, h, List.filter] at ih ⊢ <;>
      omega

/-- C5 (confirmed): among the rows that survive title resolution, exactly
those whose subscription flag parses to true produce a subscription row (one
each), and every university subscription row the run leaves carries the
constant type "institutional", the calendar-year bounds, the status "active"
and the cost of a flagged row. -/
theorem C5_subscription_iff_flag (uid : ℕ) (nm : String) (today : ℤ)
    (rows : List (Row × RowRand)) (s : Store) :
    (((procSubApp1 uid nm today rows s).subscriptions.filter
        fun x => x.universityId == uid).length
      = ((validExtractsApp1 rows).filter fun d => d.isSub).length)
    ∧ ∀ x ∈ (procSubApp1 uid nm today rows s).subscriptions.filter
        fun x => x.universityId == uid,
        x.subscriptionType = "institutional" ∧ x.startDate = "2024-01-01" ∧
        x.endDate = "2024-12-31" ∧ x.status = "active" ∧
        ∃ d ∈ validExtractsApp1 rows, d.isSub = true ∧ x.annualCost = d.cost := by
  rw [procSub_state]
  have hall : ∀ x ∈ (runDelta uid nm today (sumW (rowQueue rows)) (rowQueue rows)
      s.journals s.nextJournalId).2.1,
      x.universityId = uid ∧ x.subscriptionType = "institutional" ∧
      x.startDate = "2024-01-01" ∧ x.endDate = "2024-12-31" ∧
      x.status = "active" ∧ ∃ d ∈ validExtractsApp1 rows, d.isSub = true ∧
        x.annualCost = d.cost :=
    runDelta_sub_mem uid nm today (validExtractsApp1 rows) _ _ _ _
      (rowQueue_opData rows)
  constructor
  · rw [List.filter_append, filter_not_filter, List.filter_eq_self.mpr
      (by intro x hx; simp [(hall x hx).1])]
    rw [List.nil_append]
    rw [runDelta_sub_count uid nm today _ _ _ _ (Nat.le_refl _)]
    exact opsSubCnt_rowQueue (validExtractsApp1 rows)
  · intro x hx
    rw [List.filter_append, filter_not_filter, List.nil_append] at hx
    exact (hall x (List.mem_of_mem_filter hx)).2

/-- C3 (amended theorem): across sequentially processed files the upsert is
sound — once a journal title is present in the store, re-ingesting rows
bearing that title creates no further Journal row with it (each such row's
lookup hits and reuses the existing identifier); the journal rows with that
title are exactly those already present. -/
theorem C3_amended (uid : ℕ) (nm : String) (today : ℤ)
    (rows : List (Row × RowRand)) (s : Store) (T : CellValue)
    (h : ∃ j ∈ s.journals, j.title = T) :
    ((procSubApp1 uid nm today rows s).journals.filter fun j => j.title == T)
      = s.journals.filter fun j => j.title == T := by
  rw [procSub_state]
  exact runDelta_title_count uid nm today T _ _ _ _ h
    (fun d hd => absurd hd (rowQueue_no_insert rows d))

/-- A one-column row carrying the journal title "Nature". -/
def natureRow : Row := [("Journal", .vStr "Nature")]

/-- The all-zero pseudo-random draw bundle for one row. -/
def zeroRand : RowRand := ⟨0, 0, []⟩

/-- C3 (counterexample): the claim says ingesting the same title twice within
one file yields exactly one Journal row.  But the synchronous `forEach`
schedules both title lookups before either row's insert callback can run
(node-sqlite3 executes statements in scheduling order), so both lookups miss
and two Journal rows titled "Nature" are created from one file. -/
theorem C3_counterexample :
    ((procSubApp1 1 "Aalborg University" 0
        [(natureRow, zeroRand), (natureRow, zeroRand)] emptyStore).journals.filter
      fun j => j.title == .vStr "Nature").length = 2 := by
  decide

/-- A store already holding one Journal row titled "Nature". -/
def seedStore : Store :=
  ⟨[], [⟨0, .vStr "Nature", .vStr "Unknown", .vStr "General", "nature, general",
    "Journal from Aalborg University"⟩], [], [], 1, 0⟩

/-- C3 witness: re-ingesting a "Nature" row against a store that already has
the journal leaves the "Nature" journal rows unchanged. -/
theorem C3_witness :
    (∃ j ∈ seedStore.journals, j.title = .vStr "Nature") ∧
    ((procSubApp1 1 "Aalborg University" 0 [(natureRow, zeroRand)] seedStore).journals.filter
        fun j => j.title == .vStr "Nature")
      = seedStore.journals.filter fun j => j.title == .vStr "Nature" :=
  ⟨⟨⟨0, .vStr "Nature", .vStr "Unknown", .vStr "General", "nature, general",
      "Journal from Aalborg University"⟩, by decide, rfl⟩,
   C3_amended 1 "Aalborg University" 0 [(natureRow, zeroRand)] seedStore (.vStr "Nature")
     ⟨⟨0, .vStr "Nature", .vStr "Unknown", .vStr "General", "nature, general",
        "Journal from Aalborg University"⟩, by decide, rfl⟩⟩

/-- C7 (confirmed): a row in which no column matches the journal-title
candidate list is skipped entirely — the pipeline's result on any file
containing it is identical to the result on the same file without it: no
journal lookup or insert, no subscription and no browsing event stem from
it. -/
theorem C7_skip_missing_title (uid : ℕ) (nm : String) (today : ℤ)
    (rows1 rows2 : List (Row × RowRand)) (row : Row) (rr : RowRand) (s : Store)
    (h : findValue row titleKeys = none) :
    procSubApp1 uid nm today (rows1 ++ (row, rr) :: rows2) s
      = procSubApp1 uid nm today (rows1 ++ rows2) s := by
  have hex : extractRowApp1 row rr = none := by
    simp [extractRowApp1, h, optCell, jsFalsy]
  have hq : rowQueue (rows1 ++ (row, rr) :: rows2) = rowQueue (rows1 ++ rows2) := by
    simp [rowQueue, validExtractsApp1, List.filterMap_append, List.filterMap_cons, hex]
  unfold procSubApp1
  rw [hq]

/-- A row with no title-like column at all. -/
def noTitleRow : Row := [("Cost", .vNum 5)]

/-- C7 witness: a concrete title-less row leaves the pipeline result exactly
as if the row were absent. -/
theorem C7_witness :
    findValue noTitleRow titleKeys = none ∧
    procSubApp1 1 "Aalborg University" 0 [(noTitleRow, zeroRand)] emptyStore
      = procSubApp1 1 "Aalborg University" 0 [] emptyStore :=
  ⟨by decide,
   C7_skip_missing_title 1 "Aalborg University" 0 [] [] noTitleRow zeroRand emptyStore
     (by decide)⟩

/-- A row with title "Nature", a truthy current-year flag and cost 5000. -/
def subRow : Row :=
  [("Journal", .vStr "Nature"), ("current", .vStr "1"), ("cost", .vNum 5000)]

/-- C5 witness: processing one concretely subscribed row yields the concrete
subscription record, which carries the constant fields and the row's cost. -/
theorem C5_witness :
    mkSubscription 7 0 5000 ∈
      ((procSubApp1 7 "Aalborg University" 0 [(subRow, zeroRand)] emptyStore).subscriptions.filter
        fun x => x.universityId == 7) ∧
    ((mkSubscription 7 0 5000).subscriptionType = "institutional" ∧
     (mkSubscription 7 0 5000).startDate = "2024-01-01" ∧
     (mkSubscription 7 0 5000).endDate = "2024-12-31" ∧
     (mkSubscription 7 0 5000).status = "active" ∧
     ∃ d ∈ validExtractsApp1 [(subRow, zeroRand)], d.isSub = true ∧
       (mkSubscription 7 0 5000).annualCost = d.cost) :=
  ⟨by decide,
   (C5_subscription_iff_flag 7 "Aalborg University" 0 [(subRow, zeroRand)] emptyStore).2
     (mkSubscription 7 0 5000) (by decide)⟩

/-- Strip a trailing `.xlsx` / `.xls` extension, case-insensitively
(`filename.replace(/\.(xlsx|xls)$/i, '')`, `app1.js` line 832). -/
def stripExtension (s : String) : String :=
  if (".xlsx".data).isSuffixOf ((strLower s).data) then ⟨s.data.take (s.data.length - 5)⟩
  else if (".xls".data).isSuffixOf ((strLower s).data) then ⟨s.data.take (s.data.length - 4)⟩
  else s

/-- Strip a leading `Export_` (`replace(/^Export_/, '')`, `app1.js` line 832). -/
def stripExportTag (s : String) : String :=
  if ("Export_".data).isPrefixOf s.data then ⟨s.data.drop 7⟩ else s

/-- Does a 16-character list match `_\d{8}_\d{6}`? -/
def isTimestampTail : List Char → Bool
  | ['_', a, b, c, d, e, f, g, h, '_', i, j, k, l, m, n] =>
    a.isDigit && b.isDigit && c.isDigit && d.isDigit && e.isDigit && f.isDigit &&
    g.isDigit && h.isDigit && i.isDigit && j.isDigit && k.isDigit && l.isDigit &&
    m.isDigit && n.isDigit
  | _ => false

/-- Strip a trailing `_\d{8}_\d{6}` timestamp (`replace(/_\d{8}_\d{6}$/, '')`,
`app1.js` line 833). -/
def stripTimestamp (s : String) : String :=
  if isTimestampTail (s.data.drop (s.data.length - 16))
  then ⟨s.data.take (s.data.length - 16)⟩
  else s

/-- Replace underscores with spaces (`replace(/_/g, ' ')`, `app1.js` line 834). -/
def underscoresToSpaces (s : String) : String :=
  ⟨s.data.map fun c => if c == '_' then ' ' else c⟩

/-- `extractUniversityName` from `app1.js` lines 831-836. -/
def extractUniversityName (filename : String) : String :=
  underscoresToSpaces (stripTimestamp (stripExportTag (stripExtension filename)))

/-- The static country lookup of `getCountryFromName`, `app1.js` lines 838-851. -/
def countryMap : List (String × List String) :=
  [("Singapore", ["National University of Singapore", "Nanyang Technological University"]),
   ("Thailand", ["Mahidol University"]),
   ("Denmark", ["Aalborg University"])]

/-- `getCountryFromName` from `app1.js` lines 838-851: the first country one
of whose known institutions occurs in the university name, else "Unknown". -/
def getCountryFromName (universityName : String) : String :=
  match countryMap.find? (fun p => p.2.any fun uni => strIncludes universityName uni) with
  | some p => p.1
  | none => "Unknown"

/-- A successfully parsed workbook: its filename and the rows of its first
sheet paired with their pseudo-random draws. -/
structure ExcelFile where
  filename : String
  rows : List (Row × RowRand)

/-- `processExcelFile` from `app1.js` lines 694-828: resolve the university
from the filename, return immediately on an empty sheet, get or create the
university row (`this.lastID` on insert), then run
`processSubscriptionData`. -/
def processExcelFileApp1 (today : ℤ) (fd : ExcelFile) (s : Store) : Store :=
  if fd.rows.isEmpty then s
  else
    let nm := extractUniversityName fd.filename
    match s.universities.find? (fun u => u.name == nm) with
    | some u => procSubApp1 u.id nm today fd.rows s
    | none =>
      procSubApp1 s.nextUniversityId nm today fd.rows
        { s with
          universities := s.universities ++
            [⟨s.nextUniversityId, nm, getCountryFromName nm, "Public"⟩],
          nextUniversityId := s.nextUniversityId + 1 }

/-- `processAllExcelFiles` from `app1.js` lines 678-692: a sequential `for`
loop; `XLSX.readFile` throwing or the per-file promise rejecting is modelled
as `Except.error`, which the `try/catch` absorbs (log only) before the loop
continues with the next file. -/
def processAllExcelFilesApp1 (today : ℤ)
    (files : List (Except String ExcelFile)) (s : Store) : Store :=
  files.foldl
    (fun st f =>
      match f with
      | .error _ => st
      | .ok fd => processExcelFileApp1 today fd st)
    s

/-- C8 (confirmed): a failure while processing one file of a batch (e.g. an
unreadable workbook, raised as an error) is caught and contributes nothing,
and the batch equals processing the files before it followed by the files
after it — so no single file's failure aborts the batch, and the files after
the failing one are still processed. -/
theorem C8_batch_continues (today : ℤ) (pre post : List (Except String ExcelFile))
    (e : String) (s : Store) :
    processAllExcelFilesApp1 today (pre ++ .error e :: post) s
      = processAllExcelFilesApp1 today post (processAllExcelFilesApp1 today pre s) := by
  simp [processAllExcelFilesApp1, List.foldl_append]

/-- The data context the chat layer consults (`getDatabaseContext`,
`app1.js` lines 289-313): total universities, total active subscriptions,
and the per-university subscription counts. -/
structure ChatContext where
  totalUniversities : ℕ
  totalSubscriptions : ℕ
  universityBreakdown : List (String × ℕ)

/-- `calculateRevenuePotential` from `app1.js` lines 281-287: zero on an
empty breakdown, else `Math.round(max(0, 150 - averageSubscriptions) *
count * 5000)`. -/
def calculateRevenuePotential (universityBreakdown : List (String × ℕ)) : ℤ :=
  if universityBreakdown.length = 0 then 0
  else
    let averageSubscriptions : ℚ :=
      ((universityBreakdown.map (·.2)).sum : ℚ) / universityBreakdown.length
    let potentialGap : ℚ := max 0 (150 - averageSubscriptions)
    round (potentialGap * universityBreakdown.length * 5000)

/-- `generateRuleBasedResponse` from `app1.js` lines 348-370: keyword routing
over the lower-cased message into fixed templates (number formatting is
plain decimal here where the source uses locale separators). -/
def generateRuleBasedResponse (message : String) (context : ChatContext) : String :=
  let lowerMessage := strLower message
  if strIncludes lowerMessage "revenue" || strIncludes lowerMessage "opportunity" then
    "Based on current subscription patterns across " ++
    toString context.totalUniversities ++
    " universities, I\x27ve identified approximately $" ++
    toString (calculateRevenuePotential context.universityBreakdown) ++
    " in revenue opportunities. Key areas for expansion include AI/ML journals, Climate Science, and Digital Humanities collections."
  else if strIncludes lowerMessage "subscription" || strIncludes lowerMessage "journal" then
    let breakdown := String.intercalate ", "
      (context.universityBreakdown.map fun u =>
        u.1 ++ ": " ++ toString u.2 ++ " subscriptions")
    "Currently tracking " ++ toString context.totalSubscriptions ++
    " active subscriptions across " ++ toString context.totalUniversities ++
    " universities. Distribution: " ++ breakdown ++ "."
  else if strIncludes lowerMessage "gap" || strIncludes lowerMessage "missing" then
    "Gap analysis shows opportunities in emerging fields like AI & Machine Learning, Quantum Computing, and Climate Science. Universities with fewer than 100 subscriptions have the highest expansion potential."
  else if strIncludes lowerMessage "usage" || strIncludes lowerMessage "trend" then
    "Usage analytics indicate seasonal patterns with peak activity during academic terms. Digital access dominates with approximately 85% of total usage. Consider targeted campaigns during high-usage periods."
  else
    "I can help analyze your publishing data covering " ++
    toString context.totalUniversities ++ " universities and " ++
    toString context.totalSubscriptions ++
    " active subscriptions. Ask about revenue opportunities, subscription patterns, gap analysis, or specific universities."

/-- `generateOpenAIResponse` from `app1.js` lines 315-346: the whole external
call sits in a `try`; its outcome is the `llm` parameter (`Except.error`
covering thrown errors and timeouts).  On success the completion text is
returned; on any error the `catch` returns the local rule-based response —
the error never escapes. -/
def generateOpenAIResponse (llm : Except String String) (message : String)
    (context : ChatContext) : String :=
  match llm with
  | .ok content => content
  | .error _ => generateRuleBasedResponse message context

/-- The static final-fallback template of the `/api/chat/send` handler,
`app7.js` lines 355-366. -/
def chatFallbackTemplate (message : String) : String :=
  "I\x27m analyzing your question about \"" ++ message ++ "\".\n\nBased on your data, I can provide insights about:\n\u2022 University subscription patterns\n\u2022 Journal browsing vs purchasing behavior  \n\u2022 Revenue opportunities and trends\n\u2022 Cross-selling potential\n\nPlease try a more specific question like:\n\u2022 \"NUS subscriptions analysis\"\n\u2022 \"Top browsed but unsubscribed journals\"\n\u2022 \"Revenue opportunities by subject area\""

/-- The HTTP reply of the chat endpoint: status code, response text, and the
`usingOpenAI` marker. -/
structure ChatReply where
  status : ℕ
  response : String
  usingOpenAI : Bool
deriving DecidableEq, Repr

/-- The `/api/chat/send` handler of `app7.js` lines 293-385: empty message is
a 400; otherwise, when the external client is configured, its outcome `llm`
either supplies the text (success) or the inner `catch` substitutes the local
real-data analysis (here the parameter `realDataResponse`, whose construction
is the out-of-scope report layer); a blank response is replaced by the static
template; the reply is a 200. -/
def chatSendHandler (openaiAvailable : Bool) (llm : Except String String)
    (realDataResponse : String) (message : String) : ChatReply :=
  if strTrim message == "" then
    ⟨400, "Please provide a message to analyze.", false⟩
  else
    let pair : String × Bool :=
      if openaiAvailable then
        match llm with
        | .ok content => (content, true)
        | .error _ => (realDataResponse, false)
      else (realDataResponse, false)
    let aiResponse := if strTrim pair.1 == "" then chatFallbackTemplate message else pair.1
    ⟨200, aiResponse, pair.2⟩

/-- C9 (confirmed): when the external LLM call errors or times out, the error
is caught locally — `generateOpenAIResponse` returns exactly the local
rule-based analysis, and the chat handler still answers every non-empty
request with status 200 (for every LLM outcome), marking the reply as not
LLM-generated and serving the local analysis (or the static template when
that is blank).  The failure is never surfaced as a user-facing error. -/
theorem C9_llm_fallback (e msg realDataResponse : String) (context : ChatContext)
    (llm : Except String String) :
    generateOpenAIResponse (.error e) msg context
      = generateRuleBasedResponse msg context
    ∧ (strTrim msg ≠ "" → (chatSendHandler true llm realDataResponse msg).status = 200)
    ∧ (chatSendHandler true (.error e) realDataResponse msg).usingOpenAI = false
    ∧ (strTrim msg ≠ "" →
        (chatSendHandler true (.error e) realDataResponse msg).response
          = if strTrim realDataResponse == "" then chatFallbackTemplate msg
            else realDataResponse) := by
  refine ⟨rfl, ?_, ?_, ?_⟩
  · intro h
    cases llm <;> simp [chatSendHandler, h]
  · by_cases h : strTrim msg = "" <;> simp [chatSendHandler, h]
  · intro h
    simp [chatSendHandler, h]

/-- C9 witness: a concrete timed-out LLM call on a concrete request falls
back to the rule-based response and still yields a 200. -/
theorem C9_witness :
    generateOpenAIResponse (.error "timeout") "revenue" ⟨2, 3, []⟩
      = generateRuleBasedResponse "revenue" ⟨2, 3, []⟩ ∧
    (chatSendHandler true (.error "timeout") "local analysis" "revenue").status = 200 :=
  ⟨(C9_llm_fallback "timeout" "revenue" "local analysis" ⟨2, 3, []⟩ (.error "timeout")).1,
   (C9_llm_fallback "timeout" "revenue" "local analysis" ⟨2, 3, []⟩ (.error "timeout")).2.1
     (by decide)⟩

end PubIntel
